import Mathlib

/-!
# Verification of the smart-study-assistant client synchronization layer

Shallow embedding of the client-side synchronization and citation-resolution
layer of the repository (React/TypeScript frontend):

* the chat citation pipeline (`Chat.handleSubmit`, `refreshDocumentMapping`
  in the chat component, `src/unnamed/part_003`),
* the presigned-URL cache, document polling and the document delete guard
  (`ClassSelector.tsx`),
* class CRUD (`refreshClasses`, `addClass`, `deleteClass` from the class
  context provider, `src/unnamed/part_004`).

Modelling conventions, used throughout:

* JavaScript objects used as string-keyed dictionaries are modelled as
  association lists `List (String × α)`; `lookup` returns the first binding,
  so prepending a pair models JS property assignment (overwrite).
* JS string truthiness: the empty string is the only falsy string, so a
  missing-or-falsy field (e.g. an absent `status`) is modelled as `""`.
* `fetch` outcomes are passed in explicitly: a resolved response carrying
  data, a resolved non-2xx response, or a rejected promise (network error).
* Timestamps (`Date.now()`) are `Nat` milliseconds.
* React `useState` semantics are kept faithfully: a `setX` call replaces the
  component state for subsequent renders, but the local constant captured by
  the currently running closure is unchanged.  Where a handler both updates
  state and keeps reading its captured constant, the embedding does the same.
-/

/-- First-binding lookup in a string-keyed association list (models reading a
property of a JS object; `none` models `undefined`). -/
def lookup : List (String × α) → String → Option α
  | [], _ => none
  | (k, v) :: rest, key => if k = key then some v else lookup rest key

/-- JS property assignment `obj[k] = v` (overwrite): with first-binding
`lookup`, prepending shadows any older binding. -/
def setKey (m : List (String × α)) (k : String) (v : α) : List (String × α) :=
  (k, v) :: m

/-- JS string truthiness of an optional string: `undefined` and `""` are
falsy, every other string is truthy. -/
def isTruthy : Option String → Bool
  | some s => s ≠ ""
  | none => false

/-- A chunk reference returned by the query backend: `{document_id,
page_number}` (part_003, `handleSubmit`). -/
structure Chunk where
  document_id : String
  page_number : Int
deriving DecidableEq, Repr

/-- A citation as built by `handleSubmit` in part_003: `{document_id,
page_number, filename}`. -/
structure Citation where
  document_id : String
  page_number : Int
  filename : String
deriving DecidableEq, Repr

/-- A document metadata record as returned by `GET /api/documents`:
`{id, filename, status}`.  `status = ""` models a missing/falsy status. -/
structure Doc where
  id : String
  filename : String
  status : String
deriving DecidableEq, Repr

/-- Resolution `docIdToFilename[chunk.document_id] || 'Unknown document'`
(part_003 line 97/116): a missing or falsy entry resolves to the sentinel. -/
def resolveFilename (m : List (String × String)) (id : String) : String :=
  match lookup m id with
  | some f => if f = "" then "Unknown document" else f
  | none => "Unknown document"

/-- The citation record built from one chunk (part_003 lines 94–97). -/
def toCitation (m : List (String × String)) (ch : Chunk) : Citation :=
  { document_id := ch.document_id
    page_number := ch.page_number
    filename := resolveFilename m ch.document_id }

/-- The pair the spec deduplicates by. -/
def pairOf (c : Citation) : String × Int := (c.filename, c.page_number)

/-- The dedup key string built by part_003 line 101: the template literal
joining the citation's filename and page number with a vertical bar. -/
def citeKey (c : Citation) : String :=
  c.filename ++ "|" ++ toString c.page_number

/-- The key string of a (filename, pageNumber) pair: the filename, a
vertical bar, and the decimal page number. -/
def pairKey (p : String × Int) : String := p.1 ++ "|" ++ toString p.2

/-- The `.filter` pass of part_003 lines 98–105: drop citations whose
filename is the `'Unknown document'` sentinel, and drop any citation whose
key is already in the mutable `seen` set; a kept citation adds its key. -/
def dedupFilter : List Citation → List String → List Citation
  | [], _ => []
  | c :: rest, seen =>
    if c.filename = "Unknown document" then dedupFilter rest seen
    else if citeKey c ∈ seen then dedupFilter rest seen
    else c :: dedupFilter rest (citeKey c :: seen)

/-- Lines 93–105 of part_003: map the chunks to citation records through the
mapping `m`, then run the seen-set filter with an initially empty set. -/
def resolveCitations (m : List (String × String)) (chunks : List Chunk) :
    List Citation :=
  dedupFilter (chunks.map (toCitation m)) []

/-- The chunk citations that resolve under `m` (no dedup): the sub-sequence
of mapped citations whose filename is not the sentinel, in chunk order.
Used to state what "resolved" means in the claims. -/
def resolvedCitations (m : List (String × String)) (chunks : List Chunk) :
    List Citation :=
  (chunks.map (toCitation m)).filter (fun c => !(c.filename == "Unknown document"))

/-- The map built by the forEach loop of `refreshDocumentMapping` (part_003
lines 25–26, assigning `map[doc.id] = doc.filename` for each doc): later
assignments overwrite earlier ones, so with first-binding `lookup` the
reversed list is the resulting object. -/
def buildMap (docs : List Doc) : List (String × String) :=
  (docs.map (fun d => (d.id, d.filename))).reverse

/-- The check `!docIdToFilename[chunk.document_id]` (part_003 line 108): the
chunk's document id is missing from the mapping, or maps to a falsy
filename. -/
def unresolvedInMap (m : List (String × String)) (id : String) : Bool :=
  !(isTruthy (lookup m id))

/-- The citation portion of `handleSubmit` (part_003 lines 92–124) together
with `refreshDocumentMapping` (lines 17–32).

Inputs: `docIdToFilename` is the component state captured by the running
closure; `chunks` is `data.chunks`; `refreshedDocs` is the outcome of the
`GET /api/documents` issued by `refreshDocumentMapping` (`none`: the fetch
rejected or returned non-2xx, in which case the mapping state is unchanged).

Returns the citation list attached to the assistant message and the
`docIdToFilename` component state after the handler.  Faithful to the
source: `refreshDocumentMapping` calls `setDocIdToFilename`, which replaces
the component state, but the local `docIdToFilename` constant captured by
`handleSubmit` is unchanged, so the retry on lines 113–123 reads the same
captured value the first pass read. -/
def handleSubmitCitations (docIdToFilename : List (String × String))
    (chunks : List Chunk) (refreshedDocs : Option (List Doc)) :
    List Citation × List (String × String) :=
  let citations := resolveCitations docIdToFilename chunks
  let hasUnknownDocuments :=
    chunks.any (fun ch => unresolvedInMap docIdToFilename ch.document_id)
  if hasUnknownDocuments then
    let newState :=
      match refreshedDocs with
      | some docs => buildMap docs
      | none => docIdToFilename
    (resolveCitations docIdToFilename chunks, newState)
  else
    (citations, docIdToFilename)

/-! ### JS string primitives used by the chat display and class creation -/

/-- ASCII whitespace recognized by the JS `trim()` model (the source only
ever compares against ASCII literals). -/
def isJsWhitespace (c : Char) : Bool :=
  c == ' ' || c == '\t' || c == '\n' || c == '\r' || c == '\x0b' || c == '\x0c'

/-- Model of JS `String.prototype.trim`: strip whitespace from both ends. -/
def jsTrim (s : String) : String :=
  ⟨((s.data.dropWhile isJsWhitespace).reverse.dropWhile isJsWhitespace).reverse⟩

/-- Model of JS `String.prototype.toLowerCase` on ASCII text. -/
def jsToLowerCase (s : String) : String :=
  ⟨s.data.map Char.toLower⟩

/-- Composition `text.trim().toLowerCase()` as used by the Chat renderer
(part_003 line 163). -/
def jsTrimLower (text : String) : String :=
  jsToLowerCase (jsTrim text)

/-- The citations the Chat component renders for a message (part_003
lines 163–171): the attached list is shown only when it is present,
non-empty, and the trimmed lowercased text differs from "i don't know.". -/
def displayedCitations (text : String) (citations : Option (List Citation)) :
    List Citation :=
  match citations with
  | some cs =>
      if cs.length > 0 && !(jsTrimLower text == "i don't know.") then cs else []
  | none => []

/-! ### ClassSelector: presigned-URL cache, delete guard, polling
(src/frontend/src/components/ClassSelector.tsx) -/

/-- Outcome of a fetch call: a 2xx response carrying parsed data, a resolved
non-2xx response, or a rejected promise (network error). -/
inductive FetchResult (α : Type) where
  | ok (data : α)
  | httpError
  | networkError
deriving DecidableEq, Repr

/-- Lines 92–110: the batch presign request; on a non-ok response or a
thrown network error the function returns the empty object. -/
def getBatchPresignedUrls (r : FetchResult (List (String × String))) :
    List (String × String) :=
  match r with
  | .ok urls => urls
  | .httpError => []
  | .networkError => []

/-- The two cache maps held in component state (lines 17–18). -/
structure UrlCache where
  presignedUrls : List (String × String)
  urlCacheExpiry : List (String × Nat)
deriving DecidableEq, Repr

/-- Reading `urlCacheExpiry[docId] || 0` (line 115): an absent entry reads
as 0 (and a stored 0 is falsy, likewise yielding 0). -/
def expiryOf (cache : UrlCache) (docId : String) : Nat :=
  (lookup cache.urlCacheExpiry docId).getD 0

/-- Lines 112–132, `getPresignedUrl`: serve the cached URL when it is truthy
and `now < expiry`; otherwise issue a batch presign request for this id and,
when it yields a truthy URL, cache the URL with expiry `now` plus 50 minutes
(the source comment: URLs expire in 1 hour).  Returns the URL handed to the
caller (`none` models `undefined`), the cache state after the call, and
whether a batch request was issued. -/
def getPresignedUrl (cache : UrlCache) (now : Nat) (docId : String)
    (batch : FetchResult (List (String × String))) :
    Option String × UrlCache × Bool :=
  if isTruthy (lookup cache.presignedUrls docId) && decide (now < expiryOf cache docId) then
    (lookup cache.presignedUrls docId, cache, false)
  else
    let urls := getBatchPresignedUrls batch
    match lookup urls docId with
    | some u =>
        if u ≠ "" then
          (some u,
            { presignedUrls := setKey cache.presignedUrls docId u
              urlCacheExpiry := setKey cache.urlCacheExpiry docId (now + 50 * 60 * 1000) },
            true)
        else (some u, cache, true)
    | none => (none, cache, true)

/-- Outcome of the DELETE fetch in `handleDeleteDocument`: the promise
resolves (with any HTTP status — the source never inspects it) or rejects. -/
inductive DeleteOutcome where
  | resolved (ok : Bool)
  | networkError
deriving DecidableEq, Repr

/-- Lines 71–81, `handleDeleteDocument`: a no-op while `deletingDocId` is
truthy or the user declines the confirm dialog; otherwise the guard is set,
the DELETE is awaited, and — only if that await does not throw — the guard
is cleared and `refreshDocuments` runs.  A rejected fetch propagates out of
the handler, so the statements after the await never run and the guard stays
set.  Returns the guard state after the handler, whether the DELETE request
was issued, and whether a document fetch was triggered. -/
def handleDeleteDocument (deletingDocId : Option String) (docId : String)
    (confirmed : Bool) (outcome : DeleteOutcome) :
    Option String × Bool × Bool :=
  if isTruthy deletingDocId then (deletingDocId, false, false)
  else if !confirmed then (deletingDocId, false, false)
  else
    match outcome with
    | .resolved _ => (none, true, true)
    | .networkError => (some docId, true, false)

/-- The poll interval constant (line 6). -/
def POLL_INTERVAL : Nat := 5000

/-- The per-document pending test of line 62, with JS truthiness:
`doc.status && doc.status !== 'processed'` (an absent status is `""`). -/
def isPendingStatus (st : String) : Bool :=
  st != "" && st != "processed"

/-- Some fetched document is still pending (line 62). -/
def hasPending (docs : List Doc) : Bool :=
  docs.any (fun d => isPendingStatus d.status)

/-- The guard of the polling effect (lines 60–63): a class is selected, the
document list is non-empty, and some document is pending. -/
def pollCondition (cls : Option String) (docs : List Doc) : Bool :=
  cls.isSome && !docs.isEmpty && hasPending docs

/-- Observable state of the polling effect: the selected class id, the
fetched documents, the installed interval (identified by a generation
number; `none` when no timer is installed), the next fresh generation, and
the generations on which `clearInterval` has run. -/
structure PollComponent where
  cls : Option String
  docs : List Doc
  timer : Option Nat
  nextId : Nat
  cancelled : List Nat
deriving DecidableEq, Repr

/-- The effect cleanup (line 67): `clearInterval` on the installed timer. -/
def cancelTimer (s : PollComponent) : PollComponent :=
  match s.timer with
  | some g => { s with timer := none, cancelled := g :: s.cancelled }
  | none => s

/-- One run of the polling effect, as React performs it when a dependency
(`selectedClass` or `documents`) changes: the previous run's cleanup cancels
the installed interval, then the body installs a fresh interval iff the poll
condition holds. -/
def runPollEffect (s : PollComponent) : PollComponent :=
  let s1 := cancelTimer s
  if pollCondition s1.cls s1.docs then
    { s1 with timer := some s1.nextId, nextId := s1.nextId + 1 }
  else s1

/-- A document fetch completes: `setDocuments(data)` changes the `documents`
dependency, re-running the polling effect. -/
def onFetchSuccess (s : PollComponent) (docs : List Doc) : PollComponent :=
  runPollEffect { s with docs := docs }

/-- The selected class changes, re-running the polling effect. -/
def onClassChange (s : PollComponent) (cls : Option String) : PollComponent :=
  runPollEffect { s with cls := cls }

/-- Component teardown: only the effect cleanup runs. -/
def onTeardown (s : PollComponent) : PollComponent :=
  cancelTimer s

/-- Whether an interval tick fires `refreshDocuments` in state `s`. -/
def onTick (s : PollComponent) : Bool :=
  s.timer.isSome

/-! ### Class registry (src/unnamed/part_004, the class context provider;
also cited as src/frontend/src/context/ClassContext.tsx) -/

/-- A class record `{id, name}`. -/
structure ClassEntity where
  id : String
  name : String
deriving DecidableEq, Repr

/-- The provider's state: the class list and the current selection. -/
structure ClassState where
  classes : List ClassEntity
  selectedClass : Option ClassEntity
deriving DecidableEq, Repr

/-- Lines 40–64 of part_004, `refreshClasses`: no-op without a token; on a
2xx response replace the class list (auto-selecting the first class when
none is selected and the list is non-empty); on a non-2xx response clear
the class list and the selection; on a network error leave state
untouched. -/
def refreshClasses (token : String) (s : ClassState)
    (response : FetchResult (List ClassEntity)) : ClassState :=
  if token = "" then s
  else
    match response with
    | .ok data =>
        let s1 := { s with classes := data }
        if s.selectedClass.isNone && decide (0 < data.length) then
          { s1 with selectedClass := data.head? }
        else s1
    | .httpError => { classes := [], selectedClass := none }
    | .networkError => s

/-- Lines 76–87 of part_004, `addClass`: POST the name; if the response is
ok, await `refreshClasses`; a non-ok response is silently ignored (the
promise resolves); a rejected fetch propagates to the caller (modelled as
`Except.error`).  The Bool records whether the refetch was triggered. -/
def addClass (token : String) (s : ClassState) (name : String)
    (createRes : FetchResult Unit) (refetch : FetchResult (List ClassEntity)) :
    Except String (ClassState × Bool) :=
  match createRes with
  | .ok _ => .ok (refreshClasses token s refetch, true)
  | .httpError => .ok (s, false)
  | .networkError => .error "network error"

/-- Lines 83–90 of ClassSelector.tsx, `handleCreateClass`: submit the
trimmed name to `addClass` only when it is truthy (non-empty).  Returns the
submitted name, or `none` when no submission occurs. -/
def handleCreateClass (newClassName : String) : Option String :=
  if jsTrim newClassName ≠ "" then some (jsTrim newClassName) else none

/-- The test `selectedClass?.id === classId` (part_004 line 103). -/
def selMatches : Option ClassEntity → String → Bool
  | some c, i => c.id == i
  | none, _ => false

/-- Lines 96–107 of part_004, `deleteClass`: await the DELETE (response
never inspected; a rejected fetch propagates and nothing further runs),
await `refreshClasses`, then — if the deleted class was the selected one —
overwrite the selection with the first element of the captured pre-delete
`classes` constant with the deleted id filtered out (a stale closure: not
the refetched listing).  `deleteResolved` is whether the DELETE promise
resolved; `refetch` is the outcome of the refetch. -/
def deleteClass (token : String) (s : ClassState) (classId : String)
    (deleteResolved : Bool) (refetch : FetchResult (List ClassEntity)) :
    Except String ClassState :=
  if !deleteResolved then .error "network error"
  else
    let s1 := refreshClasses token s refetch
    if selMatches s.selectedClass classId then
      .ok { s1 with selectedClass := (s.classes.filter (fun c => c.id != classId)).head? }
    else .ok s1

/-- Modelled from the spec's words, for the C8 refinement comparison:
"falls back to selecting the first remaining class in the (now-refetched)
listing, or no selection if none remain". -/
def specSelectionAfterDelete (refetchedListing : List ClassEntity) :
    Option ClassEntity :=
  refetchedListing.head?

/-- First-occurrence filter keyed by the code's key strings: keeps a
citation iff its key string is not in the seen set, adding kept keys.
Reference form used to analyse `dedupFilter` (which interleaves the
sentinel drop with this pass). -/
def firstByKey : List Citation → List String → List Citation
  | [], _ => []
  | c :: rest, seen =>
    if citeKey c ∈ seen then firstByKey rest seen
    else c :: firstByKey rest (citeKey c :: seen)

/-- First-occurrence filter keyed by the (filename, pageNumber) pair itself,
the spec's formulation of the dedup; equal to `firstByKey` because the key
string determines the pair and conversely. -/
def firstByPair : List Citation → List (String × Int) → List Citation
  | [], _ => []
  | c :: rest, seen =>
    if pairOf c ∈ seen then firstByPair rest seen
    else c :: firstByPair rest (pairOf c :: seen)

/-- C2, code evaluated at the failing input: the current mapping is empty,
the backend returns one chunk for document `d9`, and the refresh fetch
reports `d9 → notes.pdf`.  The component's mapping state is refreshed, yet
the assistant message is finalized with no citations, while recomputing
resolution with the refreshed mapping would produce the `notes.pdf`
citation, as the claim (and the spec's §8 example) requires. -/
theorem chat_retry_stale_mapping :
    handleSubmitCitations [] [⟨"d9", 2⟩] (some [⟨"d9", "notes.pdf", "processed"⟩])
      = ([], [("d9", "notes.pdf")])
    ∧ resolveCitations [("d9", "notes.pdf")] [⟨"d9", 2⟩]
      = [⟨"d9", 2, "notes.pdf"⟩]
    ∧ (∀ (m : List (String × String)) (chunks : List Chunk)
        (refreshedDocs : Option (List Doc)),
        (handleSubmitCitations m chunks refreshedDocs).1 = resolveCitations m chunks) := by
  refine ⟨by decide, by decide, ?_⟩
  intro m chunks refreshedDocs
  cases hc : chunks.any (fun ch => unresolvedInMap m ch.document_id) <;>
    simp [handleSubmitCitations, hc]

/-- C3: `getPresignedUrl` serves the cached URL exactly when the cached
entry is present (truthy) and `now` is strictly before its stored expiry —
in that case and only that case no batch request is issued and the cache is
untouched; any URL cached by the call gets expiry `now + 50` minutes, which
is 10 minutes shorter than the backend's 60-minute link lifetime noted in
the source comment. -/
theorem presigned_url_cache_policy (cache : UrlCache) (now : Nat) (docId : String)
    (batch : FetchResult (List (String × String))) :
    (((getPresignedUrl cache now docId batch).2.2 = false) ↔
      (isTruthy (lookup cache.presignedUrls docId) = true ∧ now < expiryOf cache docId))
    ∧ ((getPresignedUrl cache now docId batch).2.2 = false →
        (getPresignedUrl cache now docId batch).1 = lookup cache.presignedUrls docId
        ∧ (getPresignedUrl cache now docId batch).2.1 = cache)
    ∧ (∀ u, lookup (getBatchPresignedUrls batch) docId = some u → u ≠ "" →
        (getPresignedUrl cache now docId batch).2.2 = true →
        expiryOf (getPresignedUrl cache now docId batch).2.1 docId
          = now + 50 * 60 * 1000)
    ∧ 50 * 60 * 1000 + 10 * 60 * 1000 = 60 * 60 * 1000 := by
  cases hc : (isTruthy (lookup cache.presignedUrls docId)
      && decide (now < expiryOf cache docId)) with
  | true =>
      rw [Bool.and_eq_true, decide_eq_true_iff] at hc
      refine ⟨by simp [getPresignedUrl, hc.1, hc.2], ?_, ?_, by norm_num⟩
      · intro _
        simp [getPresignedUrl, hc.1, hc.2]
      · intro u _ _ habs
        simp [getPresignedUrl, hc.1, hc.2] at habs
  | false =>
      have hred : getPresignedUrl cache now docId batch
          = match lookup (getBatchPresignedUrls batch) docId with
            | some u =>
                if u ≠ "" then
                  (some u,
                    { presignedUrls := setKey cache.presignedUrls docId u
                      urlCacheExpiry :=
                        setKey cache.urlCacheExpiry docId (now + 50 * 60 * 1000) },
                    true)
                else (some u, cache, true)
            | none => (none, cache, true) := by
        unfold getPresignedUrl
        rw [hc]
        rfl
      have hfetch : (getPresignedUrl cache now docId batch).2.2 = true := by
        rw [hred]
        cases hl : lookup (getBatchPresignedUrls batch) docId with
        | some u => by_cases hu : u ≠ "" <;> simp [hu]
        | none => rfl
      refine ⟨?_, ?_, ?_, by norm_num⟩
      · rw [hfetch]
        constructor
        · intro h
          cases h
        · rintro ⟨h1, h2⟩
          rw [h1] at hc
          simp [h2] at hc
      · intro h
        rw [hfetch] at h
        cases h
      · intro u hu hne _
        rw [hred, hu]
        simp [hne, expiryOf, setKey, lookup]

/-- C3 witness: an empty cache at time 1000 with a successful batch presign
for document d caches expiry 1000 + 50 minutes. -/
theorem presigned_url_cache_policy_witness :
    expiryOf (getPresignedUrl ⟨[], []⟩ 1000 "d" (.ok [("d", "u")])).2.1 "d"
      = 1000 + 50 * 60 * 1000 := by
  have h := presigned_url_cache_policy ⟨[], []⟩ 1000 "d" (.ok [("d", "u")])
  exact h.2.2.1 "u" (by decide) (by decide) (by decide)

/-- C4 counterexample: (i) a confirmed delete whose DELETE request rejects
(network failure) completes with the guard still held on the document and no
document fetch triggered, so the claim's "after the in-flight request
completes — whether it succeeds or fails — the guard is released … and a
document fetch is triggered" fails; (ii) while a delete of a document whose
id is the empty string is in flight (guard holds the falsy value), a second
confirmed delete request is accepted, not rejected. -/
theorem delete_guard_counterexample :
    handleDeleteDocument none "doc1" true .networkError = (some "doc1", true, false)
    ∧ handleDeleteDocument (some "") "doc2" true (.resolved true) = (none, true, true) := by
  decide

/-- C4 amended: while the guard holds a truthy (nonempty) document id, any
further delete request — for this or any other document — is a no-op; when
the in-flight request completes with a resolved response (any HTTP status,
success or error), the guard is released and a document fetch is triggered,
so a subsequent confirmed delete is accepted; when the request rejects
(network failure), the guard stays held and no fetch is triggered. -/
theorem delete_guard_behavior (s : Option String) (docId : String)
    (confirmed : Bool) (outcome : DeleteOutcome) :
    (isTruthy s = true →
      handleDeleteDocument s docId confirmed outcome = (s, false, false))
    ∧ (∀ ok, isTruthy s = false → confirmed = true →
        handleDeleteDocument s docId confirmed (.resolved ok) = (none, true, true))
    ∧ (isTruthy s = false → confirmed = true →
        handleDeleteDocument s docId confirmed .networkError
          = (some docId, true, false)) := by
  refine ⟨fun h => by simp [handleDeleteDocument, h], ?_, ?_⟩
  · intro ok h hconf
    simp [handleDeleteDocument, h, hconf]
  · intro h hconf
    simp [handleDeleteDocument, h, hconf]

/-- C4 witness: with a delete of doc1 in flight, a request to delete doc2 is
a no-op, and once the guard is free a confirmed delete of doc2 is accepted,
releasing the guard and triggering a fetch. -/
theorem delete_guard_behavior_witness :
    handleDeleteDocument (some "doc1") "doc2" true (.resolved true)
      = (some "doc1", false, false)
    ∧ handleDeleteDocument none "doc2" true (.resolved false) = (none, true, true) :=
  ⟨(delete_guard_behavior (some "doc1") "doc2" true (.resolved true)).1 (by decide),
   (delete_guard_behavior none "doc2" true (.resolved false)).2.1 false (by decide) rfl⟩

/-- C5: an assistant message whose text, after trimming and lowercasing,
equals "i don't know." displays no citations, whatever citation list the
message carries. -/
theorem idk_hides_citations (text : String) (citations : Option (List Citation))
    (h : jsTrimLower text = "i don't know.") :
    displayedCitations text citations = [] := by
  unfold displayedCitations
  cases citations with
  | none => rfl
  | some cs => simp [h]

/-- C5 witness: a concrete "I DON'T know." answer with a citation attached
displays none. -/
theorem idk_hides_citations_witness :
    displayedCitations "  I DON'T know. " (some [⟨"d1", 2, "a.pdf"⟩]) = [] :=
  idk_hides_citations "  I DON'T know. " (some [⟨"d1", 2, "a.pdf"⟩]) (by decide)

/-- The effect cleanup clears any installed timer and preserves the
dependencies read by the effect body. -/
theorem cancelTimer_spec (s : PollComponent) :
    (cancelTimer s).cls = s.cls ∧ (cancelTimer s).docs = s.docs
    ∧ (cancelTimer s).timer = none ∧ (cancelTimer s).nextId = s.nextId := by
  cases h : s.timer <;> simp [cancelTimer, h]

/-- After one run of the polling effect, a timer is installed exactly when
the poll condition holds for the current dependencies. -/
theorem runPollEffect_timer (s : PollComponent) :
    (runPollEffect s).timer.isSome = pollCondition s.cls s.docs := by
  obtain ⟨h1, h2, h3, -⟩ := cancelTimer_spec s
  cases hc : pollCondition s.cls s.docs <;>
    simp [runPollEffect, h1, h2, h3, hc]

/-- A run of the polling effect never removes entries from the cancelled
set built by the cleanup. -/
theorem runPollEffect_cancelled (s : PollComponent) :
    (runPollEffect s).cancelled = (cancelTimer s).cancelled := by
  unfold runPollEffect
  cases hc : pollCondition (cancelTimer s).cls (cancelTimer s).docs <;> simp [hc]

/-- C6: after a successful document fetch the effect installs an interval
timer iff a class is selected and at least one fetched document carries a
status other than processed; if every fetched document is processed, no
tick fires; an installed timer is cancelled on class change and on
teardown; the interval is the fixed 5-second constant. -/
theorem document_polling_policy (s : PollComponent) (docs : List Doc)
    (cls : Option String) :
    ((onFetchSuccess s docs).timer.isSome = true ↔
      s.cls.isSome = true ∧ ∃ d ∈ docs, d.status ≠ "" ∧ d.status ≠ "processed")
    ∧ ((∀ d ∈ docs, d.status = "processed") →
        onTick (onFetchSuccess s docs) = false)
    ∧ (∀ g, s.timer = some g →
        g ∈ (onClassChange s cls).cancelled ∧ g ∈ (onTeardown s).cancelled)
    ∧ POLL_INTERVAL = 5000 := by
  have htimer : (onFetchSuccess s docs).timer.isSome = pollCondition s.cls docs := by
    unfold onFetchSuccess
    rw [runPollEffect_timer]
  have hiff : (onFetchSuccess s docs).timer.isSome = true ↔
      s.cls.isSome = true ∧ ∃ d ∈ docs, d.status ≠ "" ∧ d.status ≠ "processed" := by
    rw [htimer]
    unfold pollCondition hasPending isPendingStatus
    simp only [Bool.and_eq_true, List.any_eq_true, bne_iff_ne, ne_eq,
      Bool.not_eq_true']
    constructor
    · rintro ⟨⟨h1, -⟩, d, hd, hp1, hp2⟩
      exact ⟨h1, d, hd, hp1, hp2⟩
    · rintro ⟨h1, d, hd, hp1, hp2⟩
      refine ⟨⟨h1, ?_⟩, d, hd, hp1, hp2⟩
      cases docs with
      | nil => cases hd
      | cons a t => rfl
  refine ⟨hiff, ?_, ?_, rfl⟩
  · intro hall
    have : ¬ (onFetchSuccess s docs).timer.isSome = true := by
      rw [hiff]
      rintro ⟨-, d, hd, -, hp2⟩
      exact hp2 (hall d hd)
    unfold onTick
    exact Bool.not_eq_true _ |>.mp this
  · intro g hg
    constructor
    · unfold onClassChange
      rw [runPollEffect_cancelled]
      unfold cancelTimer
      simp [hg]
    · unfold onTeardown cancelTimer
      simp [hg]

/-- C6 witness: with a class selected and one document still uploading, the
fetch installs a timer; when the only document is processed it does not,
and no tick fires; a held timer generation 7 lands in the cancelled set on
class change and teardown. -/
theorem document_polling_policy_witness :
    onTick (onFetchSuccess ⟨some "c1", [], none, 8, []⟩ [⟨"d", "f.pdf", "processed"⟩]) = false
    ∧ 7 ∈ (onTeardown ⟨some "c1", [], some 7, 8, []⟩).cancelled :=
  ⟨(document_polling_policy ⟨some "c1", [], none, 8, []⟩ [⟨"d", "f.pdf", "processed"⟩]
      none).2.1 (by decide),
   ((document_polling_policy ⟨some "c1", [], some 7, 8, []⟩ [] none).2.2.1 7 rfl).2⟩

/-- C7: with an authenticated token, `refreshClasses` (part_004) replaces
the local class set on a 2xx response, leaves all local state untouched on
a network failure, and clears both the class set and the selection on an
explicit non-2xx response. -/
theorem refresh_classes_error_policy (token : String) (s : ClassState)
    (data : List ClassEntity) (h : token ≠ "") :
    (refreshClasses token s (.ok data)).classes = data
    ∧ refreshClasses token s .networkError = s
    ∧ refreshClasses token s .httpError = { classes := [], selectedClass := none } := by
  refine ⟨?_, by simp [refreshClasses, h], by simp [refreshClasses, h]⟩
  unfold refreshClasses
  rw [if_neg h]
  by_cases hsel : (s.selectedClass.isNone && decide (0 < data.length)) = true <;>
    simp [hsel]

/-- C7 witness: a non-2xx class listing response clears a previously
populated class set and its selection. -/
theorem refresh_classes_error_policy_witness :
    refreshClasses "tok" ⟨[⟨"a", "A"⟩], some ⟨"a", "A"⟩⟩ .httpError = ⟨[], none⟩ :=
  (refresh_classes_error_policy "tok" ⟨[⟨"a", "A"⟩], some ⟨"a", "A"⟩⟩ [] (by decide)).2.2

/-- C8 counterexample: local listing [a, b] with a selected; a is deleted
while the refetch returns the listing [c, b] (a concurrent change on the
server).  The code selects b — the first element of the captured pre-delete
listing with a removed — whereas the claim requires the first remaining
class of the now-refetched listing, c. -/
theorem delete_class_selection_counterexample :
    deleteClass "tok" ⟨[⟨"a", "A"⟩, ⟨"b", "B"⟩], some ⟨"a", "A"⟩⟩ "a" true
        (.ok [⟨"c", "C"⟩, ⟨"b", "B"⟩])
      = .ok ⟨[⟨"c", "C"⟩, ⟨"b", "B"⟩], some ⟨"b", "B"⟩⟩
    ∧ specSelectionAfterDelete [⟨"c", "C"⟩, ⟨"b", "B"⟩] = some ⟨"c", "C"⟩
    ∧ (some (⟨"b", "B"⟩ : ClassEntity) ≠ some ⟨"c", "C"⟩) :=
  ⟨rfl, rfl, by decide⟩

/-- C8 amended: when the DELETE resolves and the refetch succeeds,
`deleteClass` replaces the class list with the refetched listing; if the
deleted class was the selected one, the selection falls back to the first
class of the pre-delete local listing with the deleted id removed — which
coincides with the first class of the refetched listing whenever the
refetch returns exactly the old listing minus the deleted class — or to no
selection if none remain. -/
theorem delete_class_selection (token : String) (s : ClassState) (classId : String)
    (data : List ClassEntity) (htok : token ≠ "")
    (hsel : selMatches s.selectedClass classId = true) :
    deleteClass token s classId true (.ok data)
      = .ok { classes := data
              selectedClass := (s.classes.filter (fun c => c.id != classId)).head? }
    ∧ ((s.classes.filter (fun c => c.id != classId)) = data →
        (s.classes.filter (fun c => c.id != classId)).head?
          = specSelectionAfterDelete data) := by
  constructor
  · cases hso : s.selectedClass with
    | none => rw [hso] at hsel; cases hsel
    | some c =>
        rw [hso] at hsel
        simp [deleteClass, refreshClasses, htok, hso, hsel]
  · intro h
    rw [h]
    rfl

/-- C8 witness: deleting the selected, last remaining class leaves an empty
listing and no selection. -/
theorem delete_class_selection_witness :
    deleteClass "tok" ⟨[⟨"a", "A"⟩], some ⟨"a", "A"⟩⟩ "a" true (.ok [])
      = .ok ⟨[], none⟩ :=
  (delete_class_selection "tok" ⟨[⟨"a", "A"⟩], some ⟨"a", "A"⟩⟩ "a" [] (by decide)
    (by decide)).1

/-- C9 counterexample: a create request answered with a non-2xx error
response leaves local state unchanged and triggers no refetch, but the call
resolves successfully — no error is surfaced to the caller, contrary to the
claim that a failed create surfaces its error. -/
theorem add_class_error_counterexample :
    addClass "tok" ⟨[], none⟩ "CS101" .httpError (.ok [])
      = .ok (⟨[], none⟩, false) := rfl

/-- C9 amended: only a name non-empty after trimming is submitted, and it is
submitted trimmed; a successful create triggers the class-list refetch; a
create answered with a non-2xx response changes no local state and triggers
no refetch, but resolves without surfacing an error; only a rejected create
request (network failure) propagates an error to the caller. -/
theorem add_class_behavior (token : String) (s : ClassState) (name : String)
    (refetch : FetchResult (List ClassEntity)) :
    (jsTrim name = "" → handleCreateClass name = none)
    ∧ (jsTrim name ≠ "" → handleCreateClass name = some (jsTrim name))
    ∧ addClass token s name (.ok ()) refetch = .ok (refreshClasses token s refetch, true)
    ∧ addClass token s name .httpError refetch = .ok (s, false)
    ∧ addClass token s name .networkError refetch = .error "network error" := by
  refine ⟨?_, ?_, rfl, rfl, rfl⟩ <;> intro h <;> simp [handleCreateClass, h]

/-- C9 witness: a whitespace-only name is not submitted; a trimmed name is
submitted. -/
theorem add_class_behavior_witness :
    handleCreateClass "   " = none :=
  (add_class_behavior "tok" ⟨[], none⟩ "   " (.ok [])).1 (by decide)

/-- C10: when the batch presign request fails — a non-2xx response or a
network error — `getBatchPresignedUrls` yields the empty mapping, and a
`getPresignedUrl` call that issued that batch request returns no URL and
leaves both cache maps exactly as they were. -/
theorem batch_presign_failure_policy (cache : UrlCache) (now : Nat) (docId : String)
    (batch : FetchResult (List (String × String)))
    (h : batch = .httpError ∨ batch = .networkError) :
    getBatchPresignedUrls batch = []
    ∧ ((getPresignedUrl cache now docId batch).2.2 = true →
        (getPresignedUrl cache now docId batch).1 = none
        ∧ (getPresignedUrl cache now docId batch).2.1 = cache) := by
  have hb : getBatchPresignedUrls batch = [] := by
    rcases h with h | h <;> rw [h] <;> rfl
  refine ⟨hb, ?_⟩
  cases hc : (isTruthy (lookup cache.presignedUrls docId)
      && decide (now < expiryOf cache docId)) with
  | true =>
      intro habs
      rw [Bool.and_eq_true, decide_eq_true_iff] at hc
      simp [getPresignedUrl, hc.1, hc.2] at habs
  | false =>
      intro _
      have : getPresignedUrl cache now docId batch = (none, cache, true) := by
        unfold getPresignedUrl
        rw [hc]
        simp [hb, lookup]
      rw [this]
      exact ⟨rfl, rfl⟩

/-- C10 witness: a failed batch presign against an empty cache returns no
URL and leaves the cache empty. -/
theorem batch_presign_failure_policy_witness :
    getBatchPresignedUrls (FetchResult.httpError : FetchResult (List (String × String))) = []
    ∧ (getPresignedUrl ⟨[], []⟩ 0 "d" .httpError).1 = none
    ∧ (getPresignedUrl ⟨[], []⟩ 0 "d" .httpError).2.1 = (⟨[], []⟩ : UrlCache) := by
  have h := batch_presign_failure_policy ⟨[], []⟩ 0 "d" .httpError (Or.inl rfl)
  exact ⟨h.1, (h.2 (by decide)).1, (h.2 (by decide)).2⟩

/-- Decimal digit characters (digits below ten) are never the vertical bar
or the minus sign. -/
theorem digitChar_ne : ∀ d, d < 10 →
    Nat.digitChar d ≠ '|' ∧ Nat.digitChar d ≠ '-' := by
  decide

/-- Every character produced by the base-ten printer core (on top of a
clean accumulator) avoids the vertical bar and the minus sign. -/
theorem toDigitsCore_ne (fuel n : Nat) (ds : List Char)
    (hds : ∀ c ∈ ds, c ≠ '|' ∧ c ≠ '-') :
    ∀ c ∈ Nat.toDigitsCore 10 fuel n ds, c ≠ '|' ∧ c ≠ '-' := by
  induction fuel generalizing n ds with
  | zero => simpa [Nat.toDigitsCore] using hds
  | succ f ih =>
      intro c hc
      simp only [Nat.toDigitsCore] at hc
      by_cases h0 : n / 10 = 0
      · rw [if_pos h0] at hc
        rcases List.mem_cons.mp hc with h | h
        · subst h; exact digitChar_ne _ (Nat.mod_lt n (by omega))
        · exact hds c h
      · rw [if_neg h0] at hc
        refine ih (n / 10) (Nat.digitChar (n % 10) :: ds) ?_ c hc
        intro d hd
        rcases List.mem_cons.mp hd with h | h
        · subst h; exact digitChar_ne _ (Nat.mod_lt n (by omega))
        · exact hds d h

/-- Characters of the decimal representation of a natural number avoid the
vertical bar and the minus sign. -/
theorem natRepr_ne (n : Nat) :
    ∀ c ∈ (Nat.repr n).data, c ≠ '|' ∧ c ≠ '-' :=
  toDigitsCore_ne (n + 1) n [] (by simp)

/-- The decimal string of an integer never contains a vertical bar. -/
theorem intToString_ne_pipe (i : Int) : ∀ c ∈ (toString i).data, c ≠ '|' := by
  cases i with
  | ofNat m =>
      intro c hc
      exact (natRepr_ne m c hc).1
  | negSucc m =>
      intro c hc
      have hd : (toString (Int.negSucc m)).data = '-' :: (Nat.repr (m + 1)).data := rfl
      rw [hd] at hc
      rcases List.mem_cons.mp hc with h | h
      · subst h; decide
      · exact (natRepr_ne (m + 1) c h).1

/-- Parsing a single digit character emitted for a digit below ten recovers
the digit. -/
theorem digitVal_digitChar : ∀ d, d < 10 → (Nat.digitChar d).toNat - 48 = d := by
  decide

/-- The printer core treats its accumulator as a suffix. -/
theorem toDigitsCore_shift (b f : Nat) : ∀ (n : Nat) (ds : List Char),
    Nat.toDigitsCore b f n ds = Nat.toDigitsCore b f n [] ++ ds := by
  induction f with
  | zero => intro n ds; simp [Nat.toDigitsCore]
  | succ f ih =>
      intro n ds
      simp only [Nat.toDigitsCore]
      by_cases h0 : n / b = 0
      · simp [h0]
      · rw [if_neg h0, if_neg h0, ih (n / b) (Nat.digitChar (n % b) :: ds),
          ih (n / b) [Nat.digitChar (n % b)]]
        simp

/-- Folding the decimal digits produced with sufficient fuel recovers the
printed number: the decimal printer is injective. -/
theorem foldl_toDigitsCore : ∀ (f n : Nat), n < f →
    (Nat.toDigitsCore 10 f n []).foldl (fun acc c => acc * 10 + (c.toNat - 48)) 0 = n := by
  intro f
  induction f with
  | zero => intro n h; exact absurd h (Nat.not_lt_zero n)
  | succ f ih =>
      intro n h
      simp only [Nat.toDigitsCore]
      by_cases h0 : n / 10 = 0
      · rw [if_pos h0]
        have hn : n < 10 := by omega
        have hmod : n % 10 = n := by omega
        simp only [List.foldl_cons, List.foldl_nil, Nat.zero_mul, Nat.zero_add]
        rw [hmod]
        exact digitVal_digitChar n hn
      · rw [if_neg h0, toDigitsCore_shift, List.foldl_append]
        have h1 : n / 10 < f := by
          have : n / 10 < n := Nat.div_lt_self (by omega) (by omega)
          omega
        rw [ih (n / 10) h1]
        simp only [List.foldl_cons, List.foldl_nil]
        have hd : (Nat.digitChar (n % 10)).toNat - 48 = n % 10 :=
          digitVal_digitChar _ (by omega)
        rw [hd]
        omega

/-- Decimal representations of distinct naturals differ. -/
theorem natRepr_inj (m n : Nat) (h : Nat.repr m = Nat.repr n) : m = n := by
  have hm := foldl_toDigitsCore (m + 1) m (Nat.lt_succ_self m)
  have hn := foldl_toDigitsCore (n + 1) n (Nat.lt_succ_self n)
  have hd : Nat.toDigitsCore 10 (m + 1) m [] = Nat.toDigitsCore 10 (n + 1) n [] :=
    congrArg String.data h
  rw [← hd] at hn
  exact hm.symm.trans hn

/-- Decimal representations of distinct integers differ. -/
theorem intToString_inj (i j : Int) (h : toString i = toString j) : i = j := by
  cases i with
  | ofNat m =>
      cases j with
      | ofNat n =>
          have hr : Nat.repr m = Nat.repr n := h
          rw [natRepr_inj m n hr]
      | negSucc n =>
          exfalso
          have hd : (Nat.repr m).data = '-' :: (Nat.repr (n + 1)).data :=
            congrArg String.data h
          exact (natRepr_ne m '-' (by rw [hd]; exact List.mem_cons_self _ _)).2 rfl
  | negSucc m =>
      cases j with
      | ofNat n =>
          exfalso
          have hd : (Nat.repr n).data = '-' :: (Nat.repr (m + 1)).data :=
            congrArg String.data h.symm
          exact (natRepr_ne n '-' (by rw [hd]; exact List.mem_cons_self _ _)).2 rfl
      | negSucc n =>
          have hd : '-' :: (Nat.repr (m + 1)).data = '-' :: (Nat.repr (n + 1)).data :=
            congrArg String.data h
          have h2 : (Nat.repr (m + 1)).data = (Nat.repr (n + 1)).data :=
            List.tail_eq_of_cons_eq hd
          have h3 := natRepr_inj (m + 1) (n + 1) (String.ext h2)
          have h4 : m = n := by omega
          rw [h4]

/-- Splitting two lists at a separator absent from both suffixes is
unambiguous. -/
theorem append_pipe_inj : ∀ (l₁ l₂ r₁ r₂ : List Char),
    l₁ ++ '|' :: r₁ = l₂ ++ '|' :: r₂ → '|' ∉ r₁ → '|' ∉ r₂ →
    l₁ = l₂ ∧ r₁ = r₂ := by
  intro l₁
  induction l₁ with
  | nil =>
      intro l₂ r₁ r₂ h h₁ h₂
      cases l₂ with
      | nil => simpa using h
      | cons y u =>
          exfalso
          simp only [List.nil_append, List.cons_append, List.cons.injEq] at h
          exact h₁ (h.2 ▸ List.mem_append_right u (List.mem_cons_self '|' r₂))
  | cons x t ih =>
      intro l₂ r₁ r₂ h h₁ h₂
      cases l₂ with
      | nil =>
          exfalso
          simp only [List.nil_append, List.cons_append, List.cons.injEq] at h
          exact h₂ (h.2 ▸ List.mem_append_right t (List.mem_cons_self '|' r₁))
      | cons y u =>
          simp only [List.cons_append, List.cons.injEq] at h
          obtain ⟨hl, hr⟩ := ih u r₁ r₂ h.2 h₁ h₂
          exact ⟨by rw [h.1, hl], hr⟩

/-- The data of a key string splits as filename characters, the bar, and the
decimal page characters. -/
theorem pairKey_data (p : String × Int) :
    (pairKey p).data = p.1.data ++ '|' :: (toString p.2).data := by
  have h1 : (pairKey p).data = (p.1.data ++ ['|']) ++ (toString p.2).data := rfl
  rw [h1, List.append_assoc]
  rfl

/-- The key string determines the (filename, pageNumber) pair: filenames
cannot smuggle an ambiguity past the bar because the decimal page digits
never contain a bar. -/
theorem pairKey_inj (p q : String × Int) (h : pairKey p = pairKey q) : p = q := by
  have hd := congrArg String.data h
  rw [pairKey_data, pairKey_data] at hd
  obtain ⟨hf, hp⟩ := append_pipe_inj p.1.data q.1.data (toString p.2).data
    (toString q.2).data hd
    (fun hm => intToString_ne_pipe p.2 '|' hm rfl)
    (fun hm => intToString_ne_pipe q.2 '|' hm rfl)
  have h1 : p.1 = q.1 := String.ext hf
  have h2 : p.2 = q.2 := intToString_inj p.2 q.2 (String.ext hp)
  exact Prod.ext h1 h2

/-- The code's citation key is the key of the citation's pair. -/
theorem citeKey_eq_pairKey (c : Citation) : citeKey c = pairKey (pairOf c) := rfl

/-- Key-string membership over mapped seen-pairs coincides with pair
membership. -/
theorem citeKey_mem_map (c : Citation) (seen : List (String × Int)) :
    citeKey c ∈ seen.map pairKey ↔ pairOf c ∈ seen := by
  constructor
  · intro h
    rcases List.mem_map.mp h with ⟨p, hp, hkey⟩
    have : p = pairOf c := pairKey_inj p (pairOf c) hkey
    exact this ▸ hp
  · intro h
    exact List.mem_map.mpr ⟨pairOf c, h, rfl⟩

/-- The code's single filter pass is the sentinel filter followed by the
first-occurrence pass on key strings. -/
theorem dedupFilter_eq_firstByKey (l : List Citation) (seen : List String) :
    dedupFilter l seen
      = firstByKey (l.filter (fun c => !(c.filename == "Unknown document"))) seen := by
  induction l generalizing seen with
  | nil => rfl
  | cons c rest ih =>
      by_cases hu : c.filename = "Unknown document"
      · simp [dedupFilter, firstByKey, hu, ih]
      · by_cases hs : citeKey c ∈ seen
        · simp [dedupFilter, firstByKey, hu, hs, ih]
        · simp [dedupFilter, firstByKey, hu, hs, ih]

/-- The first-occurrence pass may equivalently track seen pairs instead of
seen key strings. -/
theorem firstByKey_eq_firstByPair (l : List Citation) :
    ∀ seen : List (String × Int),
    firstByKey l (seen.map pairKey) = firstByPair l seen := by
  induction l with
  | nil => intro seen; rfl
  | cons c rest ih =>
      intro seen
      by_cases hs : pairOf c ∈ seen
      · have hk : citeKey c ∈ seen.map pairKey := (citeKey_mem_map c seen).mpr hs
        simp [firstByKey, firstByPair, hs, hk, ih seen]
      · have hk : citeKey c ∉ seen.map pairKey := fun hh => hs ((citeKey_mem_map c seen).mp hh)
        simp only [firstByKey, firstByPair, if_neg hs, if_neg hk]
        rw [show citeKey c :: seen.map pairKey = (pairOf c :: seen).map pairKey from rfl,
          ih (pairOf c :: seen)]

/-- The first-occurrence pass yields a sub-sequence of its input. -/
theorem firstByPair_sublist (l : List Citation) :
    ∀ seen : List (String × Int), (firstByPair l seen).Sublist l := by
  induction l with
  | nil => intro seen; simp [firstByPair]
  | cons c rest ih =>
      intro seen
      by_cases hs : pairOf c ∈ seen
      · rw [firstByPair, if_pos hs]
        exact (ih seen).cons c
      · rw [firstByPair, if_neg hs]
        exact (ih (pairOf c :: seen)).cons₂ c

/-- Nothing kept by the first-occurrence pass carries an already-seen
pair. -/
theorem firstByPair_not_mem_seen (l : List Citation) :
    ∀ seen : List (String × Int), ∀ c ∈ firstByPair l seen, pairOf c ∉ seen := by
  induction l with
  | nil => intro seen c hc; cases hc
  | cons a rest ih =>
      intro seen c hc
      by_cases hs : pairOf a ∈ seen
      · rw [firstByPair, if_pos hs] at hc
        exact ih seen c hc
      · rw [firstByPair, if_neg hs] at hc
        rcases List.mem_cons.mp hc with h | h
        · subst h; exact hs
        · intro hmem
          exact ih (pairOf a :: seen) c h (List.mem_cons_of_mem _ hmem)

/-- Distinct kept citations carry distinct pairs. -/
theorem firstByPair_pairwise (l : List Citation) :
    ∀ seen : List (String × Int),
    (firstByPair l seen).Pairwise (fun a b => pairOf a ≠ pairOf b) := by
  induction l with
  | nil => intro seen; simp [firstByPair]
  | cons a rest ih =>
      intro seen
      by_cases hs : pairOf a ∈ seen
      · rw [firstByPair, if_pos hs]
        exact ih seen
      · rw [firstByPair, if_neg hs]
        refine List.Pairwise.cons ?_ (ih (pairOf a :: seen))
        intro b hb he
        exact firstByPair_not_mem_seen rest (pairOf a :: seen) b hb
          (by rw [← he]; exact List.mem_cons_self _ _)

/-- For any pair not already seen, the pass keeps exactly the first
occurrence of that pair. -/
theorem firstByPair_filter (l : List Citation) :
    ∀ (seen : List (String × Int)) (p : String × Int), p ∉ seen →
    (firstByPair l seen).filter (fun c => pairOf c == p)
      = (l.filter (fun c => pairOf c == p)).take 1 := by
  induction l with
  | nil => intro seen p _; rfl
  | cons a rest ih =>
      intro seen p hp
      by_cases hs : pairOf a ∈ seen
      · have hap : (pairOf a == p) = false := by
          refine beq_eq_false_iff_ne.mpr ?_
          intro he
          exact hp (he ▸ hs)
        rw [firstByPair, if_pos hs, List.filter_cons, hap]
        simp only [Bool.false_eq_true, if_false]
        exact ih seen p hp
      · by_cases hap : pairOf a = p
        · have hbeq : (pairOf a == p) = true := beq_iff_eq.mpr hap
          rw [firstByPair, if_neg hs, List.filter_cons, List.filter_cons, hbeq]
          simp only [if_true]
          have hnil : (firstByPair rest (pairOf a :: seen)).filter
              (fun c => pairOf c == p) = [] := by
            refine List.filter_eq_nil_iff.mpr ?_
            intro b hb hbeq2
            have hne := firstByPair_not_mem_seen rest (pairOf a :: seen) b hb
            have : pairOf b = p := beq_iff_eq.mp hbeq2
            exact hne (by rw [this, ← hap]; exact List.mem_cons_self _ _)
          rw [hnil]
          simp
        · have hbeq : (pairOf a == p) = false := beq_eq_false_iff_ne.mpr hap
          rw [firstByPair, if_neg hs, List.filter_cons, List.filter_cons, hbeq]
          simp only [Bool.false_eq_true, if_false]
          refine ih (pairOf a :: seen) p ?_
          intro hmem
          rcases List.mem_cons.mp hmem with h | h
          · exact hap h.symm
          · exact hp h

/-- Prepending a fresh element to a list adds exactly one to its count of
distinct elements once later duplicates of it are discounted. -/
theorem dedup_cons_length (q : String × Int) (M : List (String × Int)) :
    (q :: M).dedup.length = (M.filter (fun p => decide (p ≠ q))).dedup.length + 1 := by
  rw [← List.card_toFinset, ← List.card_toFinset, List.toFinset_cons, List.toFinset_filter]
  have hfe : (M.toFinset.filter fun a => (decide (a ≠ q) : Prop)) = M.toFinset.erase q := by
    ext x
    simp [Finset.mem_filter, Finset.mem_erase, and_comm]
  rw [hfe]
  by_cases hq : q ∈ M.toFinset
  · rw [Finset.insert_eq_self.mpr hq]
    exact (Finset.card_erase_add_one hq).symm
  · rw [Finset.card_insert_of_not_mem hq, Finset.erase_eq_of_not_mem hq]

/-- The length of the first-occurrence pass is the number of distinct
not-yet-seen pairs among its input. -/
theorem firstByPair_length (l : List Citation) :
    ∀ seen : List (String × Int),
    (firstByPair l seen).length
      = ((l.map pairOf).filter (fun p => decide (p ∉ seen))).dedup.length := by
  induction l with
  | nil => intro seen; rfl
  | cons a rest ih =>
      intro seen
      by_cases hs : pairOf a ∈ seen
      · have hd : (decide (pairOf a ∉ seen)) = false := by simp [hs]
        rw [firstByPair, if_pos hs, List.map_cons, List.filter_cons, hd]
        simp only [Bool.false_eq_true, if_false]
        exact ih seen
      · have hd : (decide (pairOf a ∉ seen)) = true := by simp [hs]
        rw [firstByPair, if_neg hs, List.map_cons, List.filter_cons, hd]
        simp only [if_true, List.length_cons]
        rw [ih (pairOf a :: seen)]
        have hfilter : (rest.map pairOf).filter (fun p => decide (p ∉ pairOf a :: seen))
            = ((rest.map pairOf).filter (fun p => decide (p ∉ seen))).filter
                (fun p => decide (p ≠ pairOf a)) := by
          rw [List.filter_filter]
          refine List.filter_congr ?_
          intro x _
          simp [List.mem_cons, not_or, Bool.decide_and, decide_not]
        rw [hfilter, dedup_cons_length]

/-- The attached citation list is always the first-pass resolution under the
captured mapping (the retry recomputes the same list). -/
theorem handleSubmitCitations_fst (m : List (String × String)) (chunks : List Chunk)
    (refreshedDocs : Option (List Doc)) :
    (handleSubmitCitations m chunks refreshedDocs).1 = resolveCitations m chunks := by
  cases hc : chunks.any (fun ch => unresolvedInMap m ch.document_id) <;>
    simp [handleSubmitCitations, hc]

/-- The code's combined sentinel-drop and key dedup equals the
first-occurrence-by-pair pass over the resolved citations. -/
theorem resolveCitations_eq_firstByPair (m : List (String × String))
    (chunks : List Chunk) :
    resolveCitations m chunks = firstByPair (resolvedCitations m chunks) [] := by
  rw [resolveCitations, dedupFilter_eq_firstByKey]
  exact firstByKey_eq_firstByPair _ []

/-- C1: the citation list attached by submit carries at most one citation
per distinct (filename, pageNumber) pair (pairwise distinct pairs), is a
sub-sequence of the resolved citations in first-seen chunk order, keeps for
every pair exactly the first resolved occurrence, and its length is exactly
the number N of distinct resolved pairs. -/
theorem chat_citations_dedup (m : List (String × String)) (chunks : List Chunk)
    (refreshedDocs : Option (List Doc)) :
    ((handleSubmitCitations m chunks refreshedDocs).1.Pairwise
        (fun a b => pairOf a ≠ pairOf b))
    ∧ ((handleSubmitCitations m chunks refreshedDocs).1.Sublist
        (resolvedCitations m chunks))
    ∧ (∀ p : String × Int,
        (handleSubmitCitations m chunks refreshedDocs).1.filter (fun c => pairOf c == p)
          = ((resolvedCitations m chunks).filter (fun c => pairOf c == p)).take 1)
    ∧ (handleSubmitCitations m chunks refreshedDocs).1.length
        = ((resolvedCitations m chunks).map pairOf).dedup.length := by
  rw [handleSubmitCitations_fst, resolveCitations_eq_firstByPair]
  refine ⟨firstByPair_pairwise _ [], firstByPair_sublist _ [], ?_, ?_⟩
  · intro p
    exact firstByPair_filter _ [] p (List.not_mem_nil p)
  · rw [firstByPair_length]
    have hfil : ((resolvedCitations m chunks).map pairOf).filter
        (fun p => decide (p ∉ ([] : List (String × Int))))
        = (resolvedCitations m chunks).map pairOf := by
      refine List.filter_eq_self.mpr ?_
      intro x _
      simp
    rw [hfil]
